import Mathlib

/-!
Shallow embedding of the core of `osd_text_extractor`: the domain entity
`PlainText` (normalizer), the byte-decoding fallback chain, and the TXT,
JSON, XML and Markdown extractors, together with theorems settling the
frozen claims about them.

Strings are modelled as Lean `String`/`List Char`; bytes are modelled as
`List Nat` with each element below 256; Python exceptions are modelled by
the explicit error type `PyErr` inside `Except`.
-/

set_option maxRecDepth 100000

namespace Osd

/-- The character class of the first regex pass in `PlainText._clean`:
`re.sub(r'[\t\r\f]+', ' ', text)` collapses runs of tab, carriage return
and form feed. -/
def isTabCrFf (c : Char) : Bool :=
  c = '\t' || c = '\r' || c = '\x0c'

/-- Python `str.strip()` whitespace: ASCII whitespace together with the
Unicode whitespace characters recognised by `str.isspace`. -/
def isPyWhitespace (c : Char) : Bool :=
  c = ' ' || c = '\t' || c = '\n' || c = '\r' || c = '\x0b' || c = '\x0c' ||
  (0x1c ≤ c.toNat && c.toNat ≤ 0x1f) || c.toNat = 0x85 || c.toNat = 0xa0 ||
  c.toNat = 0x1680 || (0x2000 ≤ c.toNat && c.toNat ≤ 0x200a) ||
  c.toNat = 0x2028 || c.toNat = 0x2029 || c.toNat = 0x202f ||
  c.toNat = 0x205f || c.toNat = 0x3000

/-- `string.ascii_letters` membership. -/
def isAsciiLetterChar (c : Char) : Bool :=
  ('A' ≤ c && c ≤ 'Z') || ('a' ≤ c && c ≤ 'z')

/-- `string.digits` membership. -/
def isAsciiDigitChar (c : Char) : Bool :=
  '0' ≤ c && c ≤ '9'

/-- `string.punctuation` membership: the 32 printable ASCII characters that
are neither letters, digits nor space (codes 33-47, 58-64, 91-96, 123-126). -/
def isAsciiPunctChar (c : Char) : Bool :=
  (33 ≤ c.toNat && c.toNat ≤ 47) || (58 ≤ c.toNat && c.toNat ≤ 64) ||
  (91 ≤ c.toNat && c.toNat ≤ 96) || (123 ≤ c.toNat && c.toNat ≤ 126)

/-- Membership in `ascii_letters + digits + punctuation + ' '`, the filter
string on the comprehension in `PlainText._clean`.  Note that `'\n'` is not
a member. -/
def isAllowedChar (c : Char) : Bool :=
  isAsciiLetterChar c || isAsciiDigitChar c || isAsciiPunctChar c || c = ' '

/-- `re.sub(r'[class]+', rep, s)` for a single replacement character:
each maximal run of characters satisfying `p` becomes the single character
`rep`.  The flag records whether the previous character was inside a run. -/
def collapseRunsAux (p : Char → Bool) (rep : Char) : Bool → List Char → List Char
  | _, [] => []
  | prev, c :: cs =>
    if p c then
      if prev then collapseRunsAux p rep true cs
      else rep :: collapseRunsAux p rep true cs
    else c :: collapseRunsAux p rep false cs

/-- `re.sub(r'[class]+', rep, s)` on a whole list. -/
def collapseRuns (p : Char → Bool) (rep : Char) (l : List Char) : List Char :=
  collapseRunsAux p rep false l

/-- Python `str.strip()`: drop whitespace from both ends. -/
def pyStripList (l : List Char) : List Char :=
  ((l.dropWhile isPyWhitespace).reverse.dropWhile isPyWhitespace).reverse

/-- Python `str.strip()` on a `String`. -/
def pyStrip (s : String) : String :=
  String.mk (pyStripList s.data)

/-- Python exceptions raised by the modelled code: the domain
`TextLengthError`, the infrastructure `ExtractionError`, and
`xml.etree.ElementTree.ParseError`, each carrying its message. -/
inductive PyErr where
  | textLengthError (msg : String)
  | extractionError (msg : String)
  | parseError (msg : String)
deriving DecidableEq, Repr

instance {ε α : Type} [DecidableEq ε] [DecidableEq α] : DecidableEq (Except ε α) :=
  fun a b =>
    match a, b with
    | .ok x, .ok y => decidable_of_iff (x = y) (by simp)
    | .error e, .error f => decidable_of_iff (e = f) (by simp)
    | .ok _, .error _ => isFalse (by simp)
    | .error _, .ok _ => isFalse (by simp)

namespace PlainText

/-- The single message used by both `TextLengthError` raises in
`plain_text.py`. -/
def lengthErrorMsg : String := "Text length should be greater than zero"

/-- `PlainText.__post_init__`: raise `TextLengthError` when
`len(self.value.strip()) <= 0`. -/
def post_init_check (value : String) : Except PyErr Unit :=
  if (pyStripList value.data).length ≤ 0 then
    .error (.textLengthError lengthErrorMsg)
  else .ok ()

/-- `PlainText._clean` on a character list, step for step:
collapse `[\t\r\f]+` to one space, collapse `' +'` to one space, collapse
`'\n+'` to one newline, `strip()`, then keep only characters of
`ascii_letters + digits + punctuation + ' '`. -/
def cleanList (l : List Char) : List Char :=
  (pyStripList
      (collapseRuns (fun c => c = '\n') '\n'
        (collapseRuns (fun c => c = ' ') ' '
          (collapseRuns isTabCrFf ' ' l)))).filter isAllowedChar

/-- `PlainText._clean` on a `String`. -/
def clean (value : String) : String :=
  String.mk (cleanList value.data)

/-- `PlainText.to_str`: clean, then raise `TextLengthError` when the
cleaned value is empty. -/
def to_str (value : String) : Except PyErr String :=
  let cleaned := clean value
  if cleaned.data.length = 0 then .error (.textLengthError lengthErrorMsg)
  else .ok cleaned

end PlainText

/-- Construct `PlainText(value)` and call `.to_str()` on it, as the use
case does: construction can already raise in `__post_init__`. -/
def plainTextToStr (value : String) : Except PyErr String :=
  match PlainText.post_init_check value with
  | .error e => .error e
  | .ok _ => PlainText.to_str value


/-! ### Byte decoding: `decode_to_utf8` -/

/-- A UTF-8 continuation byte. -/
def isContByte (b : Nat) : Bool :=
  0x80 ≤ b && b < 0xc0

/-- `bytes.decode("utf-8")`, strict: rejects invalid start bytes, truncated
sequences, overlong encodings, surrogates and values above `0x10ffff`, as
Python's strict utf-8 decoder does. -/
def utf8DecodeList : List Nat → Option (List Char)
  | [] => some []
  | b :: rest =>
    if b < 0x80 then (utf8DecodeList rest).map (fun cs => Char.ofNat b :: cs)
    else if b < 0xc2 then none
    else if b < 0xe0 then
      match rest with
      | c1 :: r =>
        if isContByte c1 then
          (utf8DecodeList r).map (fun cs => Char.ofNat ((b - 0xc0) * 64 + (c1 - 0x80)) :: cs)
        else none
      | [] => none
    else if b < 0xf0 then
      match rest with
      | c1 :: c2 :: r =>
        if ((if b = 0xe0 then 0xa0 else 0x80) ≤ c1 &&
            c1 ≤ (if b = 0xed then 0x9f else 0xbf)) && isContByte c2 then
          (utf8DecodeList r).map
            (fun cs => Char.ofNat ((b - 0xe0) * 4096 + (c1 - 0x80) * 64 + (c2 - 0x80)) :: cs)
        else none
      | _ => none
    else if b < 0xf5 then
      match rest with
      | c1 :: c2 :: c3 :: r =>
        if ((if b = 0xf0 then 0x90 else 0x80) ≤ c1 &&
            c1 ≤ (if b = 0xf4 then 0x8f else 0xbf)) && isContByte c2 && isContByte c3 then
          (utf8DecodeList r).map
            (fun cs => Char.ofNat ((b - 0xf0) * 262144 + (c1 - 0x80) * 4096 +
              (c2 - 0x80) * 64 + (c3 - 0x80)) :: cs)
        else none
      | _ => none
    else none

/-- `bytes.decode("utf-8", errors="replace")`: lossy and total; an invalid
or truncated sequence contributes a replacement character and the scan
resumes at the next byte. -/
def utf8ReplaceList : List Nat → List Char
  | [] => []
  | b :: rest =>
    if b < 0x80 then Char.ofNat b :: utf8ReplaceList rest
    else if b < 0xc2 then '\ufffd' :: utf8ReplaceList rest
    else if b < 0xe0 then
      match rest with
      | c1 :: r =>
        if isContByte c1 then Char.ofNat ((b - 0xc0) * 64 + (c1 - 0x80)) :: utf8ReplaceList r
        else '\ufffd' :: utf8ReplaceList (c1 :: r)
      | [] => ['\ufffd']
    else if b < 0xf0 then
      match rest with
      | c1 :: c2 :: r =>
        if ((if b = 0xe0 then 0xa0 else 0x80) ≤ c1 &&
            c1 ≤ (if b = 0xed then 0x9f else 0xbf)) && isContByte c2 then
          Char.ofNat ((b - 0xe0) * 4096 + (c1 - 0x80) * 64 + (c2 - 0x80)) :: utf8ReplaceList r
        else '\ufffd' :: utf8ReplaceList (c1 :: c2 :: r)
      | rest2 => '\ufffd' :: utf8ReplaceList rest2
    else if b < 0xf5 then
      match rest with
      | c1 :: c2 :: c3 :: r =>
        if ((if b = 0xf0 then 0x90 else 0x80) ≤ c1 &&
            c1 ≤ (if b = 0xf4 then 0x8f else 0xbf)) && isContByte c2 && isContByte c3 then
          Char.ofNat ((b - 0xf0) * 262144 + (c1 - 0x80) * 4096 +
            (c2 - 0x80) * 64 + (c3 - 0x80)) :: utf8ReplaceList r
        else '\ufffd' :: utf8ReplaceList (c1 :: c2 :: c3 :: r)
      | rest2 => '\ufffd' :: utf8ReplaceList rest2
    else '\ufffd' :: utf8ReplaceList rest

/-- `bytes.decode("utf-8")` as an `Option String`. -/
def utf8Decode (bs : List Nat) : Option String :=
  (utf8DecodeList bs).map String.mk

/-- Group bytes into UTF-16 code units, little- or big-endian; an odd
trailing byte is a decode error. -/
def utf16Units (le : Bool) : List Nat → Option (List Nat)
  | [] => some []
  | [_] => none
  | a :: b2 :: rest =>
    (utf16Units le rest).map
      (fun us => (if le then a + 256 * b2 else 256 * a + b2) :: us)

/-- Combine UTF-16 code units into characters: surrogate pairs combine,
lone surrogates are a decode error. -/
def utf16UnitsToChars : List Nat → Option (List Char)
  | [] => some []
  | u :: us =>
    if u < 0xd800 || 0xdfff < u then
      (utf16UnitsToChars us).map (fun cs => Char.ofNat u :: cs)
    else if u ≤ 0xdbff then
      match us with
      | u2 :: us2 =>
        if 0xdc00 ≤ u2 && u2 ≤ 0xdfff then
          (utf16UnitsToChars us2).map
            (fun cs => Char.ofNat (0x10000 + (u - 0xd800) * 1024 + (u2 - 0xdc00)) :: cs)
        else none
      | [] => none
    else none

/-- `bytes.decode("utf-16")`: honour a byte-order mark when present,
default to little-endian without one. -/
def utf16Decode (bs : List Nat) : Option String :=
  match bs with
  | 0xff :: 0xfe :: rest => ((utf16Units true rest).bind utf16UnitsToChars).map String.mk
  | 0xfe :: 0xff :: rest => ((utf16Units false rest).bind utf16UnitsToChars).map String.mk
  | _ => ((utf16Units true bs).bind utf16UnitsToChars).map String.mk

/-- The windows-1251 mapping of bytes `0x80`-`0xbf` (index `0x18`, byte
`0x98`, is undefined in the codec and handled separately). -/
def cp1251High : List Nat :=
  [0x402, 0x403, 0x201a, 0x453, 0x201e, 0x2026, 0x2020, 0x2021,
   0x20ac, 0x2030, 0x409, 0x2039, 0x40a, 0x40c, 0x40b, 0x40f,
   0x452, 0x2018, 0x2019, 0x201c, 0x201d, 0x2022, 0x2013, 0x2014,
   0x0, 0x2122, 0x459, 0x203a, 0x45a, 0x45c, 0x45b, 0x45f,
   0xa0, 0x40e, 0x45e, 0x408, 0xa4, 0x490, 0xa6, 0xa7,
   0x401, 0xa9, 0x404, 0xab, 0xac, 0xad, 0xae, 0x407,
   0xb0, 0xb1, 0x406, 0x456, 0x491, 0xb5, 0xb6, 0xb7,
   0x451, 0x2116, 0x454, 0xbb, 0x458, 0x405, 0x455, 0x457]

/-- One byte through the windows-1251 codec; byte `0x98` is the codec's
single undefined position and raises `UnicodeDecodeError`. -/
def cp1251Byte (b : Nat) : Option Nat :=
  if b < 0x80 then some b
  else if b = 0x98 then none
  else if b < 0xc0 then some (cp1251High.getD (b - 0x80) 0)
  else if b < 0x100 then some (b + 0x350)
  else none

/-- `bytes.decode("windows-1251")` on a byte list. -/
def cp1251DecodeList : List Nat → Option (List Char)
  | [] => some []
  | b :: rest =>
    match cp1251Byte b with
    | some n => (cp1251DecodeList rest).map (fun cs => Char.ofNat n :: cs)
    | none => none

/-- `bytes.decode("windows-1251")`. -/
def cp1251Decode (bs : List Nat) : Option String :=
  (cp1251DecodeList bs).map String.mk

/-- `bytes.decode("iso-8859-1")` on a byte list: every byte maps to the
code point of the same value, so on well-formed byte input this never
fails. -/
def latin1DecodeList : List Nat → Option (List Char)
  | [] => some []
  | b :: rest =>
    if b < 0x100 then (latin1DecodeList rest).map (fun cs => Char.ofNat b :: cs)
    else none

/-- `bytes.decode("iso-8859-1")`. -/
def latin1Decode (bs : List Nat) : Option String :=
  (latin1DecodeList bs).map String.mk

/-- `decode_to_utf8`: try utf-8, utf-16, windows-1251, iso-8859-1 in that
order, a failed decode (`UnicodeDecodeError`) moving on to the next; if all
fail, fall back to lossy utf-8 decoding with replacement characters. -/
def decode_to_utf8 (file_content : List Nat) : String :=
  match utf8Decode file_content with
  | some s => s
  | none =>
    match utf16Decode file_content with
    | some s => s
    | none =>
      match cp1251Decode file_content with
      | some s => s
      | none =>
        match latin1Decode file_content with
        | some s => s
        | none => String.mk (utf8ReplaceList file_content)

/-! ### The TXT extractor -/

/-- Python `str.replace(old, new)` for a single-character pattern. -/
def listReplace1 (p : Char) (repl : List Char) : List Char → List Char
  | [] => []
  | c :: cs =>
    if c = p then repl ++ listReplace1 p repl cs
    else c :: listReplace1 p repl cs

/-- Python `str.replace(old, new)` for a two-character pattern: scan left
to right, replacing non-overlapping occurrences and continuing after each
replacement. -/
def listReplace2 (p1 p2 : Char) (repl : List Char) : List Char → List Char
  | [] => []
  | [c] => [c]
  | c1 :: c2 :: cs =>
    if c1 = p1 && c2 = p2 then repl ++ listReplace2 p1 p2 repl cs
    else c1 :: listReplace2 p1 p2 repl (c2 :: cs)

/-- `TXTExtractor.extract_plain_text`: decode, then
`.replace(nl nl, nl).replace(tab, sp).replace(cr, sp).replace(sp sp, empty)`.
Every step is total, so the surrounding try/except never fires and the
model returns the string directly. -/
def TXTExtractor.extract_plain_text (file_content : List Nat) : String :=
  String.mk
    (listReplace2 ' ' ' ' []
      (listReplace1 '\r' [' ']
        (listReplace1 '\t' [' ']
          (listReplace2 '\n' '\n' ['\n'] (decode_to_utf8 file_content).data))))

/-! ### Pictographic symbols -/

/-- Modelled from the spec: "Pictographic symbols: emoji and similar
non-textual Unicode symbols, stripped during extraction".  The third-party
`emoji` library is not part of this repository; its character set is
approximated by the main pictographic code-point blocks. -/
def isEmojiChar (c : Char) : Bool :=
  (0x1f000 ≤ c.toNat && c.toNat ≤ 0x1faff) ||
  (0x2600 ≤ c.toNat && c.toNat ≤ 0x27bf) ||
  (0x2b00 ≤ c.toNat && c.toNat ≤ 0x2bff) ||
  c.toNat = 0xfe0f || c.toNat = 0x200d

/-- `emoji.replace_emoji(text, replace=chr())` with the empty replacement:
remove every pictographic character. -/
def replace_emoji (s : String) : String :=
  String.mk (s.data.filter (fun c => !isEmojiChar c))

/-! ### The JSON extractor -/

/-- Parsed JSON values as produced by `json.loads`; object entries keep
the document order. -/
inductive Json where
  | null
  | bool (b : Bool)
  | num (n : Int)
  | str (s : String)
  | arr (items : List Json)
  | obj (entries : List (String × Json))

mutual

/-- `_recursive_extract`: collect every string value, depth first; numbers,
booleans, null and object keys contribute nothing. -/
def recursive_extract : Json → List String
  | .str s => [s]
  | .obj entries => recursiveExtractEntries entries []
  | .arr items => recursiveExtractItems items []
  | .null => []
  | .bool _ => []
  | .num _ => []

/-- The loop `for value in obj.values(): result.extend(...)` with its
`result` accumulator. -/
def recursiveExtractEntries : List (String × Json) → List String → List String
  | [], acc => acc
  | (_, v) :: rest, acc => recursiveExtractEntries rest (acc ++ recursive_extract v)

/-- The loop `for item in obj: result.extend(...)` with its `result`
accumulator. -/
def recursiveExtractItems : List Json → List String → List String
  | [], acc => acc
  | item :: rest, acc => recursiveExtractItems rest (acc ++ recursive_extract item)

end

/-- `JSONExtractor.extract_plain_text`: `json.loads` is standard-library
code, so the parse result enters the model as the argument; a parse failure
is caught by the blanket `except` and wrapped with the generic message;
otherwise join the collected strings with single spaces, `strip()` the
joined text, and remove pictographic characters. -/
def JSONExtractor.extract_plain_text (parsed : Except String Json) : Except PyErr String :=
  match parsed with
  | .error _ => .error (.extractionError "Failed to extract text from JSON")
  | .ok json_data =>
    .ok (replace_emoji (pyStrip (String.intercalate " " (recursive_extract json_data))))

mutual

/-- Every string value in a JSON structure, depth first in document order,
written as a plain recursive collection. -/
def specStringValues : Json → List String
  | .str s => [s]
  | .obj entries => specStringValuesEntries entries
  | .arr items => specStringValuesItems items
  | .null => []
  | .bool _ => []
  | .num _ => []

/-- String values of the object entries, in order. -/
def specStringValuesEntries : List (String × Json) → List String
  | [] => []
  | (_, v) :: rest => specStringValues v ++ specStringValuesEntries rest

/-- String values of the array items, in order. -/
def specStringValuesItems : List Json → List String
  | [] => []
  | item :: rest => specStringValues item ++ specStringValuesItems rest

end

/-- The JSON extraction exactly as the spec words it: "recursively collect
every string value found anywhere in the structure (object values, array
elements, nested arbitrarily), ignoring numbers/booleans/null/keys; join
collected strings with a single space; strip pictographic symbols" — and
nothing else, in particular no whitespace strip of the joined result. -/
def jsonExtractAsSpecified (json_data : Json) : String :=
  replace_emoji (String.intercalate " " (specStringValues json_data))

/-! ### The XML extractor -/

/-- An `xml.etree.ElementTree` element: tag, attributes, leading text,
children, and the tail text that follows the element inside its parent. -/
inductive Xml where
  | elem (tag : String) (attrs : List (String × String)) (text : String)
      (children : List Xml) (tail : String)

/-- The tail text of an element. -/
def Xml.tailText : Xml → String
  | .elem _ _ _ _ t => t

mutual

/-- `_get_max_depth`: an element with no children is falsy in ElementTree,
so it reports the current depth; otherwise the children are walked at
`current_depth + 1`, maximising over `max_child_depth` which starts at the
current depth. -/
def get_max_depth : Xml → Nat → Nat
  | .elem _ _ _ [] _, current_depth => current_depth
  | .elem _ _ _ (c :: cs) _, current_depth =>
    getMaxDepthList (c :: cs) (current_depth + 1) current_depth

/-- The loop `for child in element: max_child_depth = max(...)`. -/
def getMaxDepthList : List Xml → Nat → Nat → Nat
  | [], _, acc => acc
  | c :: cs, d, acc => getMaxDepthList cs d (max acc (get_max_depth c d))

end

mutual

/-- Modelled from the spec: `xml_node_to_plain_text` is imported from
`infrastructure.extractors.utils`, but its source file is missing from the
repository snapshot; per the spec it "concatenates all text content
depth-first, ignoring attribute values and tag names", which for an
ElementTree walk is the element text followed by each child's text and
tail. -/
def xml_node_to_plain_text : Xml → String
  | .elem _ _ text children _ => text ++ xmlChildrenText children

/-- Depth-first text of a child list: each child's own text followed by its
tail. -/
def xmlChildrenText : List Xml → String
  | [] => ""
  | c :: rest => xml_node_to_plain_text c ++ c.tailText ++ xmlChildrenText rest

end

/-- `XMLExtractor.extract_plain_text`.  The standard-library parser
`et.fromstring` enters the model as the `parse` argument; the control flow
follows `_xml.py`: the size and depth guards raise `ExtractionError`
INSIDE the `try` block, `ParseError` is re-raised as
"Invalid XML format: ...", and every other exception — including the two
guard errors just raised — is caught by the blanket `except Exception` and
re-raised with the generic message. -/
def XMLExtractor.extract_plain_text (parse : String → Except String Xml)
    (file_content : List Nat) : Except PyErr String :=
  let xml_text := decode_to_utf8 file_content
  let body : Except PyErr String :=
    if xml_text.length > 10 * 1024 * 1024 then
      .error (.extractionError "XML file too large for processing")
    else
      match parse xml_text with
      | .error m => .error (.parseError m)
      | .ok root =>
        if get_max_depth root 0 > 50 then
          .error (.extractionError "XML structure too deeply nested")
        else .ok (replace_emoji (xml_node_to_plain_text root))
  match body with
  | .ok s => .ok s
  | .error (.parseError m) => .error (.extractionError ("Invalid XML format: " ++ m))
  | .error _ => .error (.extractionError "Failed to extract XML text")

/-- A linear chain of elements: `deepXml n` has nesting depth `n` below its
root. -/
def deepXml : Nat → Xml
  | 0 => .elem "a" [] "" [] ""
  | n + 1 => .elem "a" [] "" [deepXml n] ""

/-! ### The Markdown link and image rules -/

/-- Characters up to the first occurrence of the delimiter `d`:
`some (before, after)` when `d` occurs, mirroring how a regex class that
excludes `d`, followed by the literal `d`, consumes input. -/
def takeUntil (d : Char) : List Char → Option (List Char × List Char)
  | [] => none
  | x :: xs =>
    if x = d then some ([], xs)
    else (takeUntil d xs).map (fun pr => (x :: pr.1, pr.2))

/-- Match the link rule of `_md.py` at the head of the input: an opening
bracket, display text without closing bracket, the closing bracket, an
opening parenthesis, a url without closing parenthesis, the closing
parenthesis.  On success, return capture group 1 (the display text) and
the input following the match. -/
def matchLink : List Char → Option (List Char × List Char)
  | c :: cs =>
    if c = '[' then
      match takeUntil ']' cs with
      | some (text, r1) =>
        match r1 with
        | c2 :: cs2 =>
          if c2 = '(' then
            match takeUntil ')' cs2 with
            | some (_, r2) => some (text, r2)
            | none => none
          else none
        | [] => none
      | none => none
    else none
  | [] => none

/-- Match the image rule of `_md.py` at the head of the input: as the link
rule but preceded by an exclamation mark; returns the alt text. -/
def matchImage : List Char → Option (List Char × List Char)
  | a :: b :: cs =>
    if a = '!' && b = '[' then
      match takeUntil ']' cs with
      | some (alt, r1) =>
        match r1 with
        | c2 :: cs2 =>
          if c2 = '(' then
            match takeUntil ')' cs2 with
            | some (_, r2) => some (alt, r2)
            | none => none
          else none
        | [] => none
      | none => none
    else none
  | _ => none

theorem takeUntil_length {d : Char} : ∀ {l text r : List Char},
    takeUntil d l = some (text, r) → r.length < l.length := by
  intro l
  induction l with
  | nil => intro text r h; simp [takeUntil] at h
  | cons x xs ih =>
    intro text r h
    rw [takeUntil] at h
    by_cases hx : x = d
    · rw [if_pos hx] at h
      simp only [Option.some.injEq, Prod.mk.injEq] at h
      obtain ⟨-, hr⟩ := h
      subst hr
      simp
    · rw [if_neg hx, Option.map_eq_some'] at h
      obtain ⟨pr, hpr, heq⟩ := h
      simp only [Prod.mk.injEq] at heq
      obtain ⟨-, h2⟩ := heq
      subst h2
      have := ih hpr
      simp only [List.length_cons]
      omega

theorem matchLink_length {l text r : List Char} (h : matchLink l = some (text, r)) :
    r.length < l.length := by
  match l with
  | [] => simp [matchLink] at h
  | c :: cs =>
    rw [matchLink] at h
    by_cases hc : c = '['
    · rw [if_pos hc] at h
      cases h1 : takeUntil ']' cs with
      | none => rw [h1] at h; exact absurd h (by simp)
      | some pr =>
        obtain ⟨text1, r1⟩ := pr
        rw [h1] at h
        cases r1 with
        | nil => exact absurd h (by simp)
        | cons c2 cs2 =>
          by_cases hc2 : c2 = '('
          · simp only [if_pos hc2] at h
            cases h2 : takeUntil ')' cs2 with
            | none => rw [h2] at h; exact absurd h (by simp)
            | some pr2 =>
              obtain ⟨u, r2⟩ := pr2
              rw [h2] at h
              simp only [Option.some.injEq, Prod.mk.injEq] at h
              obtain ⟨-, hr⟩ := h
              subst hr
              have t1 := takeUntil_length h1
              have t2 := takeUntil_length h2
              simp only [List.length_cons] at t1 ⊢
              omega
          · simp only [if_neg hc2] at h
            exact absurd h (by simp)
    · rw [if_neg hc] at h
      exact absurd h (by simp)

theorem matchImage_length {l text r : List Char} (h : matchImage l = some (text, r)) :
    r.length < l.length := by
  match l with
  | [] => simp [matchImage] at h
  | [a] => simp [matchImage] at h
  | a :: b :: cs =>
    rw [matchImage] at h
    by_cases hab : a = '!' && b = '['
    · rw [if_pos hab] at h
      cases h1 : takeUntil ']' cs with
      | none => rw [h1] at h; exact absurd h (by simp)
      | some pr =>
        obtain ⟨alt1, r1⟩ := pr
        rw [h1] at h
        cases r1 with
        | nil => exact absurd h (by simp)
        | cons c2 cs2 =>
          by_cases hc2 : c2 = '('
          · simp only [if_pos hc2] at h
            cases h2 : takeUntil ')' cs2 with
            | none => rw [h2] at h; exact absurd h (by simp)
            | some pr2 =>
              obtain ⟨u, r2⟩ := pr2
              rw [h2] at h
              simp only [Option.some.injEq, Prod.mk.injEq] at h
              obtain ⟨-, hr⟩ := h
              subst hr
              have t1 := takeUntil_length h1
              have t2 := takeUntil_length h2
              simp only [List.length_cons] at t1 ⊢
              omega
          · simp only [if_neg hc2] at h
            exact absurd h (by simp)
    · rw [if_neg hab] at h
      exact absurd h (by simp)

/-- `re.sub` with the link rule: scan left to right; where the pattern
matches, emit the display text and continue after the match; elsewhere keep
the character.  The replacement itself is not rescanned. -/
def sub_link : List Char → List Char
  | [] => []
  | c :: cs =>
    match h : matchLink (c :: cs) with
    | some (text, rest) => text ++ sub_link rest
    | none => c :: sub_link cs
termination_by l => l.length
decreasing_by
  · exact matchLink_length h
  · simp

/-- `re.sub` with the image rule, same scan. -/
def sub_image : List Char → List Char
  | [] => []
  | c :: cs =>
    match h : matchImage (c :: cs) with
    | some (alt, rest) => alt ++ sub_image rest
    | none => c :: sub_image cs
termination_by l => l.length
decreasing_by
  · exact matchImage_length h
  · simp

/-- Lines 18 and 19 of `_md.py` in their source order: the link
substitution runs first, then the image substitution. -/
def md_link_image_passes (l : List Char) : List Char :=
  sub_image (sub_link l)

theorem takeUntil_append {d : Char} : ∀ {xs : List Char} (rest : List Char),
    d ∉ xs → takeUntil d (xs ++ d :: rest) = some (xs, rest) := by
  intro xs
  induction xs with
  | nil => intro rest _; simp [takeUntil]
  | cons x xs ih =>
    intro rest hd
    rw [List.mem_cons, not_or] at hd
    obtain ⟨hdx, hmem⟩ := hd
    rw [List.cons_append, takeUntil, if_neg (fun hh => hdx hh.symm),
      ih rest hmem]
    rfl

theorem sub_link_nil : sub_link [] = [] := by
  rw [sub_link]

theorem sub_link_cons_some {c : Char} {cs text rest : List Char}
    (hm : matchLink (c :: cs) = some (text, rest)) :
    sub_link (c :: cs) = text ++ sub_link rest := by
  rw [sub_link]
  split
  · rename_i a b heq
    rw [hm] at heq
    simp only [Option.some.injEq, Prod.mk.injEq] at heq
    rw [heq.1, heq.2]
  · rename_i heq
    rw [hm] at heq
    exact absurd heq (by simp)

theorem sub_link_cons_none {c : Char} {cs : List Char}
    (hm : matchLink (c :: cs) = none) :
    sub_link (c :: cs) = c :: sub_link cs := by
  rw [sub_link]
  split
  · rename_i a b heq
    rw [hm] at heq
    exact absurd heq (by simp)
  · rfl

theorem sub_image_nil : sub_image [] = [] := by
  rw [sub_image]

theorem sub_image_cons_some {c : Char} {cs alt rest : List Char}
    (hm : matchImage (c :: cs) = some (alt, rest)) :
    sub_image (c :: cs) = alt ++ sub_image rest := by
  rw [sub_image]
  split
  · rename_i a b heq
    rw [hm] at heq
    simp only [Option.some.injEq, Prod.mk.injEq] at heq
    rw [heq.1, heq.2]
  · rename_i heq
    rw [hm] at heq
    exact absurd heq (by simp)

theorem sub_image_cons_none {c : Char} {cs : List Char}
    (hm : matchImage (c :: cs) = none) :
    sub_image (c :: cs) = c :: sub_image cs := by
  rw [sub_image]
  split
  · rename_i a b heq
    rw [hm] at heq
    exact absurd heq (by simp)
  · rfl

theorem matchLink_cons_ne {c : Char} {cs : List Char} (hc : c ≠ '[') :
    matchLink (c :: cs) = none := by
  rw [matchLink, if_neg hc]

theorem matchLink_construct {text url : List Char} (rest : List Char)
    (ht : ']' ∉ text) (hu : ')' ∉ url) :
    matchLink ('[' :: (text ++ ']' :: '(' :: (url ++ ')' :: rest))) =
      some (text, rest) := by
  rw [matchLink, if_pos rfl, takeUntil_append _ ht]
  simp only [if_true]
  rw [takeUntil_append _ hu]

theorem matchImage_none {c : Char} {cs : List Char} (h : '[' ∉ cs) :
    matchImage (c :: cs) = none := by
  cases cs with
  | nil => rfl
  | cons b cs2 =>
    rw [List.mem_cons, not_or] at h
    rw [matchImage]
    simp only [Bool.and_eq_true, decide_eq_true_eq]
    rw [if_neg (fun hh => h.1 hh.2.symm)]

theorem sub_image_noop : ∀ (l : List Char), '[' ∉ l.tail → sub_image l = l := by
  intro l
  induction l with
  | nil => intro _; exact sub_image_nil
  | cons c cs ih =>
    intro h
    rw [List.tail_cons] at h
    rw [sub_image_cons_none (matchImage_none h),
      ih (fun hm => h (List.mem_of_mem_tail hm))]

theorem md_link_general {text url : List Char} (h1 : '[' ∉ text) (h2 : ']' ∉ text)
    (h3 : ')' ∉ url) :
    md_link_image_passes ('[' :: (text ++ ']' :: '(' :: (url ++ [')']))) = text := by
  unfold md_link_image_passes
  rw [sub_link_cons_some (matchLink_construct [] h2 h3), sub_link_nil, List.append_nil]
  exact sub_image_noop text (fun hm => h1 (List.mem_of_mem_tail hm))

theorem md_image_general {alt url : List Char} (h1 : '[' ∉ alt) (h2 : ']' ∉ alt)
    (h3 : ')' ∉ url) :
    md_link_image_passes ('!' :: '[' :: (alt ++ ']' :: '(' :: (url ++ [')']))) =
      '!' :: alt := by
  unfold md_link_image_passes
  rw [sub_link_cons_none (matchLink_cons_ne (by decide)),
    sub_link_cons_some (matchLink_construct [] h2 h3), sub_link_nil, List.append_nil]
  exact sub_image_noop ('!' :: alt) (by rwa [List.tail_cons])

mutual

theorem recursive_extract_eq : ∀ (j : Json), recursive_extract j = specStringValues j
  | .str _ => rfl
  | .null => rfl
  | .bool _ => rfl
  | .num _ => rfl
  | .obj entries => by
    show recursiveExtractEntries entries [] = specStringValuesEntries entries
    rw [recursiveExtractEntries_eq entries []]
    simp
  | .arr items => by
    show recursiveExtractItems items [] = specStringValuesItems items
    rw [recursiveExtractItems_eq items []]
    simp

theorem recursiveExtractEntries_eq : ∀ (entries : List (String × Json)) (acc : List String),
    recursiveExtractEntries entries acc = acc ++ specStringValuesEntries entries
  | [], acc => by
    show acc = acc ++ specStringValuesEntries []
    simp [specStringValuesEntries]
  | (_, v) :: rest, acc => by
    show recursiveExtractEntries rest (acc ++ recursive_extract v) =
      acc ++ specStringValuesEntries ((default, v) :: rest)
    rw [recursiveExtractEntries_eq rest (acc ++ recursive_extract v),
      recursive_extract_eq v]
    show acc ++ specStringValues v ++ specStringValuesEntries rest =
      acc ++ (specStringValues v ++ specStringValuesEntries rest)
    rw [List.append_assoc]

theorem recursiveExtractItems_eq : ∀ (items : List Json) (acc : List String),
    recursiveExtractItems items acc = acc ++ specStringValuesItems items
  | [], acc => by
    show acc = acc ++ specStringValuesItems []
    simp [specStringValuesItems]
  | item :: rest, acc => by
    show recursiveExtractItems rest (acc ++ recursive_extract item) =
      acc ++ specStringValuesItems (item :: rest)
    rw [recursiveExtractItems_eq rest (acc ++ recursive_extract item),
      recursive_extract_eq item]
    show acc ++ specStringValues item ++ specStringValuesItems rest =
      acc ++ (specStringValues item ++ specStringValuesItems rest)
    rw [List.append_assoc]

end

theorem dropWhile_eq_nil_of_all {p : Char → Bool} : ∀ {l : List Char},
    (∀ c ∈ l, p c) → l.dropWhile p = [] := by
  intro l
  induction l with
  | nil => intro _; rfl
  | cons x xs ih =>
    intro h
    rw [List.dropWhile_cons, if_pos (h x (List.mem_cons_self x xs))]
    exact ih (fun c hc => h c (List.mem_cons_of_mem x hc))

theorem pyStripList_nil_of_ws {l : List Char} (h : ∀ c ∈ l, isPyWhitespace c) :
    pyStripList l = [] := by
  unfold pyStripList
  rw [dropWhile_eq_nil_of_all h]
  rfl

theorem latin1DecodeList_total : ∀ {b : List Nat}, (∀ x ∈ b, x < 256) →
    ∃ cs, latin1DecodeList b = some cs := by
  intro b
  induction b with
  | nil => intro _; exact ⟨[], rfl⟩
  | cons x xs ih =>
    intro h
    obtain ⟨cs, hcs⟩ := ih (fun y hy => h y (List.mem_cons_of_mem x hy))
    refine ⟨Char.ofNat x :: cs, ?_⟩
    rw [latin1DecodeList, if_pos (h x (List.mem_cons_self x xs)), hcs]
    rfl

/-! ### The claims -/

/-- Claim C1 (code bug, evaluation at the failing input): the claimed
scenario fails on the code.  Extracting the UTF-8 bytes of "Hello мир 123"
as txt and normalizing with `PlainText.to_str` yields "Hello  123" with a
double space, not "Hello 123": `_clean` runs no second whitespace-collapse
pass after character filtering, although the repository's own tests expect
the collapsed output. -/
theorem c1_scenario_double_space :
    plainTextToStr (TXTExtractor.extract_plain_text
      [72, 101, 108, 108, 111, 32, 208, 188, 208, 184, 209, 128, 32, 49, 50, 51]) =
      .ok "Hello  123" ∧ ("Hello  123" : String) ≠ "Hello 123" := by
  decide

/-- Claim C2 (code bug, evaluation at the failing input): the character
filter of `PlainText._clean` does NOT retain newlines —
`ascii_letters + digits + punctuation + ' '` does not contain the newline
character — so "Line one\nLine two" cleans to "Line oneLine two", although
the repository's own tests (`test_to_str_preserves_newlines`) and the spec
expect the newlines preserved. -/
theorem c2_newline_removed :
    PlainText.clean "Line one\nLine two" = "Line oneLine two" ∧
    isAllowedChar '\n' = false := by
  decide

/-- Claim C3 (code bug, evaluation at the failing input): `clean` is not
idempotent on the code as written: cleaning "Hello мир 123" gives
"Hello  123", and cleaning again gives "Hello 123".  The missing second
whitespace-collapse pass that breaks claim C1 is what breaks idempotence
here. -/
theorem c3_clean_not_idempotent :
    PlainText.clean "Hello мир 123" = "Hello  123" ∧
    PlainText.clean (PlainText.clean "Hello мир 123") = "Hello 123" ∧
    ("Hello  123" : String) ≠ "Hello 123" := by
  decide

/-- Claim C4, counterexample: the two failure modes are NOT distinguishable.
Construction from the empty string and cleaning-to-empty of "мир" raise the
same exception with the identical message — the same `PyErr` value. -/
theorem c4_counterexample :
    plainTextToStr "" =
      .error (.textLengthError "Text length should be greater than zero") ∧
    plainTextToStr "мир" =
      .error (.textLengthError "Text length should be greater than zero") := by
  decide

/-- Claim C4 (amended): constructing the entity from an empty or
whitespace-only string fails immediately, and a string that survives
construction but cleans to the empty string fails in `to_str`; both
failures are the domain `TextLengthError` with the SAME message
"Text length should be greater than zero", so they are not distinguishable
from each other. -/
theorem c4_same_error (s t : String)
    (hs : ∀ c ∈ s.data, isPyWhitespace c)
    (ht1 : pyStripList t.data ≠ [])
    (ht2 : PlainText.cleanList t.data = []) :
    plainTextToStr s = .error (.textLengthError PlainText.lengthErrorMsg) ∧
    plainTextToStr t = .error (.textLengthError PlainText.lengthErrorMsg) := by
  constructor
  · unfold plainTextToStr PlainText.post_init_check
    rw [pyStripList_nil_of_ws hs]
    rfl
  · unfold plainTextToStr PlainText.post_init_check
    rw [if_neg (fun hle => ht1 (List.eq_nil_of_length_eq_zero (Nat.le_zero.mp hle)))]
    unfold PlainText.to_str PlainText.clean
    rw [ht2]
    rfl

/-- Witness for C4: the whitespace-only input "  " and the
cleaned-to-empty input "мир" take the two failure paths. -/
theorem c4_same_error_witness :
    plainTextToStr "  " = .error (.textLengthError PlainText.lengthErrorMsg) ∧
    plainTextToStr "мир" = .error (.textLengthError PlainText.lengthErrorMsg) :=
  c4_same_error "  " "мир" (by decide) (by decide) (by decide)

/-- Claim C5, counterexample: the extractor does not return the collected
strings merely joined and emoji-stripped — it also strips leading/trailing
whitespace of the joined text (`.strip()` on line 15 of `_json.py`).  On
the document whose only string value is " a", the code returns "a" while
the spec's literal description returns " a". -/
theorem c5_counterexample :
    JSONExtractor.extract_plain_text (.ok (Json.arr [Json.str " a"])) = .ok "a" ∧
    jsonExtractAsSpecified (Json.arr [Json.str " a"]) = " a" ∧
    ("a" : String) ≠ " a" := by
  refine ⟨?_, ?_, by decide⟩
  · show Except.ok (replace_emoji (pyStrip (String.intercalate " "
      (recursive_extract (Json.arr [Json.str " a"]))))) = _
    decide
  · decide

/-- Claim C5 (amended): for every parsed JSON document the extractor
returns exactly the string values found anywhere in the structure (object
values and array elements, nested arbitrarily, ignoring numbers, booleans,
null and object keys), collected depth-first in document order, joined
with a single space, STRIPPED of leading and trailing whitespace, and with
pictographic symbols removed. -/
theorem c5_json_characterization (j : Json) :
    JSONExtractor.extract_plain_text (.ok j) =
      .ok (replace_emoji (pyStrip (String.intercalate " " (specStringValues j)))) := by
  show Except.ok (replace_emoji (pyStrip (String.intercalate " "
    (recursive_extract j)))) = _
  rw [recursive_extract_eq j]

/-- Claim C6, counterexample: a depth-limit violation does NOT surface with
a message distinguishable from the generic failure message.  The internal
`ExtractionError("XML structure too deeply nested")` is caught by the
blanket `except Exception` and re-raised as the generic
"Failed to extract XML text". -/
theorem c6_counterexample :
    XMLExtractor.extract_plain_text (fun _ => .ok (deepXml 51)) [] =
      .error (.extractionError "Failed to extract XML text") ∧
    XMLExtractor.extract_plain_text (fun _ => .ok (deepXml 51)) [] ≠
      .error (.extractionError "XML structure too deeply nested") := by
  decide

/-- Claim C6 (amended): the XML extractor raises `ExtractionError` whenever
the decoded text exceeds the 10 MB ceiling or the element tree exceeds the
50-level depth ceiling, and malformed XML produces the distinct
"Invalid XML format: ..." message; but the size and depth violations are
NOT distinguishable from the generic failure — both surface with the
generic "Failed to extract XML text" message, because the specific errors
raised inside the `try` block are caught and re-wrapped. -/
theorem c6_xml_errors (parse : String → Except String Xml) (content : List Nat) :
    ((decode_to_utf8 content).length > 10 * 1024 * 1024 →
      XMLExtractor.extract_plain_text parse content =
        .error (.extractionError "Failed to extract XML text")) ∧
    (∀ root, ¬ (decode_to_utf8 content).length > 10 * 1024 * 1024 →
      parse (decode_to_utf8 content) = .ok root →
      get_max_depth root 0 > 50 →
      XMLExtractor.extract_plain_text parse content =
        .error (.extractionError "Failed to extract XML text")) ∧
    (∀ m, ¬ (decode_to_utf8 content).length > 10 * 1024 * 1024 →
      parse (decode_to_utf8 content) = .error m →
      XMLExtractor.extract_plain_text parse content =
        .error (.extractionError ("Invalid XML format: " ++ m))) := by
  refine ⟨fun hlen => ?_, fun root hlen hp hd => ?_, fun m hlen hp => ?_⟩
  · unfold XMLExtractor.extract_plain_text
    simp only [if_pos hlen]
  · unfold XMLExtractor.extract_plain_text
    simp only [if_neg hlen, hp, if_pos hd]
  · unfold XMLExtractor.extract_plain_text
    simp only [if_neg hlen, hp]

/-- Witness for C6: a 51-deep tree takes the depth path and ends at the
generic message; a parse failure takes the `ParseError` path and ends at
the distinct invalid-format message. -/
theorem c6_xml_errors_witness :
    XMLExtractor.extract_plain_text (fun _ => .ok (deepXml 51)) [] =
      .error (.extractionError "Failed to extract XML text") ∧
    XMLExtractor.extract_plain_text (fun _ => .error "no element found") [] =
      .error (.extractionError ("Invalid XML format: " ++ "no element found")) :=
  ⟨(c6_xml_errors (fun _ => .ok (deepXml 51)) []).2.1 (deepXml 51)
      (by decide) rfl (by decide),
    (c6_xml_errors (fun _ => .error "no element found") []).2.2 "no element found"
      (by decide) rfl⟩

/-- Claim C7: the decode fallback is total.  For every byte sequence,
`decode_to_utf8` tries utf-8, utf-16, windows-1251 and iso-8859-1 in that
fixed order, returning the first success; iso-8859-1 always succeeds on
bytes, so some string is always returned and the function never raises;
if all four did fail it would fall back to lossy utf-8 decoding with
replacement characters. -/
theorem c7_decode_total (b : List Nat) (hb : ∀ x ∈ b, x < 256) :
    (∃ s, latin1Decode b = some s) ∧
    (∀ s, utf8Decode b = some s → decode_to_utf8 b = s) ∧
    (utf8Decode b = none → ∀ s, utf16Decode b = some s → decode_to_utf8 b = s) ∧
    (utf8Decode b = none → utf16Decode b = none →
      ∀ s, cp1251Decode b = some s → decode_to_utf8 b = s) ∧
    (utf8Decode b = none → utf16Decode b = none → cp1251Decode b = none →
      ∀ s, latin1Decode b = some s → decode_to_utf8 b = s) ∧
    (utf8Decode b = none → utf16Decode b = none → cp1251Decode b = none →
      latin1Decode b = none → decode_to_utf8 b = String.mk (utf8ReplaceList b)) := by
  obtain ⟨cs, hcs⟩ := latin1DecodeList_total hb
  refine ⟨⟨String.mk cs, ?_⟩, ?_, ?_, ?_, ?_, ?_⟩
  · unfold latin1Decode
    rw [hcs]
    rfl
  · intro s hs
    unfold decode_to_utf8
    rw [hs]
  · intro h8 s h16
    unfold decode_to_utf8
    rw [h8, h16]
  · intro h8 h16 s hc
    unfold decode_to_utf8
    rw [h8, h16, hc]
  · intro h8 h16 hc s hl
    unfold decode_to_utf8
    rw [h8, h16, hc, hl]
  · intro h8 h16 hc hl
    unfold decode_to_utf8
    rw [h8, h16, hc, hl]

/-- Witness for C7: the bytes of "Hi" decode through the first stage, and
the iso-8859-1 stage would succeed on them too. -/
theorem c7_decode_total_witness :
    decode_to_utf8 [72, 105] = "Hi" ∧ ∃ s, latin1Decode [72, 105] = some s :=
  ⟨(c7_decode_total [72, 105] (by decide)).2.1 "Hi" (by decide),
    (c7_decode_total [72, 105] (by decide)).1⟩

/-- Claim C8 (code bug, evaluation at the failing input): the txt extractor
does NOT strip pictographic symbols: on the UTF-8 bytes of "hi 😀" it
returns the decoded text unchanged, emoji included, although the
repository's own test (`test_extract_plain_text_removes_emoji` for
`TestTXTExtractor`) and the spec expect the emoji removed.  `_txt.py`
never calls `emoji.replace_emoji`, unlike the JSON and XML extractors. -/
theorem c8_txt_emoji_kept :
    TXTExtractor.extract_plain_text [104, 105, 32, 240, 159, 152, 128] = "hi 😀" ∧
    ("hi 😀" : String).data.any isEmojiChar = true := by
  decide

/-- Claim C9, counterexample: on the input "![alt](url)" the two rules of
`_md.py` produce "!alt", not "alt": the link rule runs first and consumes
"[alt](url)", leaving the residual exclamation mark, so the output does
not contain only the alt text at that position. -/
theorem c9_counterexample :
    md_link_image_passes ("![alt](url)".data) = "!alt".data ∧
    "!alt".data ≠ "alt".data := by
  refine ⟨?_, by decide⟩
  exact @md_image_general ['a', 'l', 't'] ['u', 'r', 'l']
    (by decide) (by decide) (by decide)

/-- Claim C9 (amended): link syntax `[text](url)` converts to its display
text with no residual markup; image syntax `![alt](url)`, because the link
rule runs before the image rule, converts to an exclamation mark followed
by the alt text — the URL is discarded but the leading `!` remains. -/
theorem c9_md_link_image (alt url : List Char)
    (h1 : '[' ∉ alt) (h2 : ']' ∉ alt) (h3 : ')' ∉ url) :
    md_link_image_passes ('[' :: (alt ++ ']' :: '(' :: (url ++ [')']))) = alt ∧
    md_link_image_passes ('!' :: '[' :: (alt ++ ']' :: '(' :: (url ++ [')']))) =
      '!' :: alt :=
  ⟨md_link_general h1 h2 h3, md_image_general h1 h2 h3⟩

/-- Witness for C9: the link "[t](u)" becomes "t" and the image "![t](u)"
becomes "!t". -/
theorem c9_md_link_image_witness :
    md_link_image_passes ('[' :: (['t'] ++ ']' :: '(' :: (['u'] ++ [')']))) = ['t'] ∧
    md_link_image_passes ('!' :: '[' :: (['t'] ++ ']' :: '(' :: (['u'] ++ [')']))) =
      '!' :: ['t'] :=
  c9_md_link_image ['t'] ['u'] (by decide) (by decide) (by decide)

/-- Claim C10: in the txt extractor, `.replace("  ", "")` deletes each
occurrence of two consecutive spaces outright instead of collapsing it to
one space, so the words around it merge: the bytes of "a  b" extract to
"ab", not "a b". -/
theorem c10_txt_double_space :
    TXTExtractor.extract_plain_text [97, 32, 32, 98] = "ab" ∧
    ("ab" : String) ≠ "a b" := by
  decide

end Osd

